import Mathlib

/-!
Shallow embedding of `rs-downloader` (src/main.rs): a parallel HTTP file
downloader.  Machine floats are modelled as exact rationals (all byte counts
appearing in the claims are integers below 2^24, where `f32` arithmetic and the
divisions by 1000 performed by the formatting code are exact).  A Rust panic is
modelled as `Option.none`.  Cross-thread scheduling is serialised: the worker
pool is embedded as one worker draining the task queue in order, which
preserves the per-producer FIFO ordering that the message channel guarantees.
-/

namespace RsDownloader

/-- Embedding of `DError` (main.rs 68-84): either an IO error or an HTTP
(hyper) error, each carrying an opaque description. -/
inductive DError where
  | ioError (msg : String)
  | hyperError (msg : String)
deriving DecidableEq, Repr

/-- Embedding of `enum Message` (main.rs 95-114). -/
inductive Message where
  | startFile (thread_id : Nat) (file_name : String) (file_size : Option Nat)
  | downloading (bytes_read : Nat) (thread_id : Nat)
  | success (thread_id : Nat)
  | error (thread_id : Nat) (err : DError)
  | done
deriving DecidableEq, Repr

/-- The decimal unit symbols of the `number_prefix` crate, in increasing order
(kilo through yotta).  This crate is an external dependency (not under src/);
its `decimal_prefix` is modelled from its documented behaviour: repeatedly
divide by 1000 while the amount is at least 1000, at most eight times. -/
def decimalUnits : List String := ["k", "M", "G", "T", "P", "E", "Z", "Y"]

/-- Number of divisions performed by `decimal_prefix`'s scaling loop:
divide by 1000 while the running amount is at least 1000, with fuel bounding
the unit table.  The running amount after `i` exact divisions is
`b / 1000 ^ i`, which is at least 1000 exactly when `⌊b / 1000 ^ i⌋` is, so
truncating `Nat` division decides the loop condition exactly. -/
def scaleSteps : Nat → Nat → Nat
  | 0, _ => 0
  | fuel + 1, b => if b < 1000 then 0 else scaleSteps fuel (b / 1000) + 1

/-- Rust float formatting with precision (`{:.0}`) rounds to nearest with
ties to even; this rounds the exact fraction `num / den`. -/
def roundHalfEvenFrac (num den : Nat) : Nat :=
  let f := num / den
  let r := num % den
  if 2 * r < den then f
  else if den < 2 * r then f + 1
  else if f % 2 = 0 then f else f + 1

/-- Embedding of `fmt_bytes` (main.rs 116-121) on whole byte counts (all byte
counts in the claims are below 2^24, where `f32` holds them and the divisions
by 1000 exactly; the scaled amount is carried as the exact fraction
`bytes / 1000 ^ i`).  `Standalone` amounts print with Rust's plain float
`Display` (an integral `f32` prints with no decimal point); `Prefixed`
amounts print with `{:.0}`, i.e. rounded to zero decimal places, followed by
the unit symbol and `B`. -/
def fmt_bytes (bytes : Nat) : String :=
  let i := scaleSteps 8 bytes
  if i = 0 then toString bytes ++ " bytes"
  else
    toString (roundHalfEvenFrac bytes (1000 ^ i)) ++ " " ++
      decimalUnits.getD (i - 1) "?" ++ "B"

/-- The result of one call to `Read::read` on the inner source: `ok n` bytes
read (0 means end of stream) or an IO error. -/
inductive ReadResult where
  | ok (n : Nat)
  | err (e : DError)
deriving DecidableEq, Repr

/-- Embedding of `<Watcher as Read>::read` (main.rs 45-53): delegate to the
inner read; if it returned `Ok(n)` with `n > 0`, invoke the callback with `n`
before returning; return the inner result unchanged.  The second component is
the list of callback invocations made during the call, in order. -/
def watcherRead (inner : ReadResult) : ReadResult × List Nat :=
  match inner with
  | .ok n => (.ok n, if 0 < n then [n] else [])
  | .err e => (.err e, [])

/-- `watcherRead` mapped over a whole sequence of inner reads: the sequence of
returned results and the concatenated callback invocations. -/
def watcherReads : List ReadResult → List ReadResult × List Nat
  | [] => ([], [])
  | r :: rs =>
      let p := watcherRead r
      let q := watcherReads rs
      (p.1 :: q.1, p.2 ++ q.2)

/-- Total number of bytes successfully read in a sequence of inner reads. -/
def totalBytesRead : List ReadResult → Nat
  | [] => 0
  | .ok n :: rs => n + totalBytesRead rs
  | .err _ :: rs => totalBytesRead rs

/-- Embedding of `struct Progress` (main.rs 123-131).  `Instant` is modelled as
a rational timestamp; `download_rate` (an `f64` used only for display) as the
exact rational quotient. -/
structure Progress where
  file_name : String
  file_size : Option Nat
  progress : Nat
  error : Option DError
  start_time : ℚ
  download_rate : ℚ
deriving DecidableEq, Repr

/-- Embedding of `Progress::new` (main.rs 134-143); `now` is `Instant::now()`. -/
def Progress.new (now : ℚ) : Progress :=
  { file_name := ""
    file_size := none
    progress := 0
    error := none
    start_time := now
    download_rate := 0 }

/-- `HashMap::get` on the association-list model of the status map. -/
def mapLookup (m : List (Nat × Progress)) (k : Nat) : Option Progress :=
  match m with
  | [] => none
  | (k', v) :: rest => if k' = k then some v else mapLookup rest k

/-- `HashMap::remove` on the association-list model (no-op when absent). -/
def mapRemove (m : List (Nat × Progress)) (k : Nat) : List (Nat × Progress) :=
  m.filter (fun p => p.1 ≠ k)

/-- `HashMap::insert` on the association-list model (overwrite semantics). -/
def mapInsert (m : List (Nat × Progress)) (k : Nat) (v : Progress) :
    List (Nat × Progress) :=
  (k, v) :: mapRemove m k

/-- Embedding of `struct DownloadWatcher` (main.rs 168-174).  The `rustbox`
terminal handle is rendering-only and is not part of the state model. -/
structure DownloadWatcher where
  status_map : List (Nat × Progress)
  quitting : Bool
  num_files : Nat
  files_finished : Nat
deriving DecidableEq, Repr

/-- Embedding of `DownloadWatcher::new` (main.rs 177-185). -/
def DownloadWatcher.new (num_files : Nat) : DownloadWatcher :=
  { status_map := [], quitting := false, num_files := num_files, files_finished := 0 }

/-- Embedding of `DownloadWatcher::process` (main.rs 187-223).  `now` is
`Instant::now()` at processing time.  Returns the updated state and the
"should stop" boolean; `none` models the panic of the `unwrap` on line 210
(a `Downloading` message whose `thread_id` has no entry in the map).
`elapsed.seconds()` is `now - start_time`; when it is zero the Rust code
produces an infinite `f64` rate while the rational model yields 0 — the rate
is display-only and no claim depends on it. -/
def DownloadWatcher.process (s : DownloadWatcher) (now : ℚ) (message : Message) :
    Option (DownloadWatcher × Bool) :=
  if s.quitting then some (s, true)
  else
    match message with
    | .done => some (s, true)
    | .startFile thread_id file_name file_size =>
        some ({ s with status_map := (mapInsert s.status_map thread_id
                  { file_name := file_name
                    file_size := file_size
                    progress := 0
                    error := none
                    start_time := now
                    download_rate := 0 }) }, false)
    | .success thread_id =>
        some ({ s with status_map := mapRemove s.status_map thread_id,
                       files_finished := s.files_finished + 1 }, false)
    | .downloading bytes_read thread_id =>
        match mapLookup s.status_map thread_id with
        | none => none
        | some e =>
            let new_progress := e.progress + bytes_read
            let elapsed := now - e.start_time
            let download_rate := (new_progress : ℚ) / elapsed
            some ({ s with status_map := (mapInsert s.status_map thread_id
                      { e with progress := new_progress,
                               download_rate := download_rate }) }, false)
    | .error thread_id err =>
        let e := (mapLookup s.status_map thread_id).getD (Progress.new now)
        some ({ s with status_map := (mapInsert s.status_map thread_id
                  { e with error := some err }) }, false)

/-- Outcome of the aggregator's receive loop (main.rs 346-355) run against a
finite queue of timestamped messages: it either broke out of the loop
(`process` returned true) with the unconsumed remainder, ran out of messages
(the real loop would block on `pop` forever), or panicked. -/
inductive LoopOutcome where
  | stopped (final : DownloadWatcher) (remaining : List (ℚ × Message))
  | blocked (state : DownloadWatcher)
  | panicked
deriving DecidableEq, Repr

/-- Embedding of the receive loop body (main.rs 346-355) without the
rendering-cadence branch: pop each message and `process` it until it reports
"should stop".  (Rendering and the quit-keypress poll live in `output`, which
mutates only `quitting`; the loop is modelled with `process` alone.) -/
def receiveLoop (s : DownloadWatcher) : List (ℚ × Message) → LoopOutcome
  | [] => .blocked s
  | (t, m) :: rest =>
      match s.process t m with
      | none => .panicked
      | some (s', true) => .stopped s' rest
      | some (s', false) => receiveLoop s' rest

/-- Processing a run of messages that is expected to neither stop nor panic:
`none` when a stop or panic occurred, otherwise the resulting state. -/
def processNoStop (s : DownloadWatcher) : List (ℚ × Message) → Option DownloadWatcher
  | [] => some s
  | (t, m) :: rest =>
      match s.process t m with
      | some (s', false) => processNoStop s' rest
      | _ => none

instance exceptDecEq {ε α : Type} [DecidableEq ε] [DecidableEq α] :
    DecidableEq (Except ε α) := fun x y =>
  match x, y with
  | .ok a, .ok b =>
      if h : a = b then isTrue (by rw [h]) else isFalse (by simp [h])
  | .error a, .error b =>
      if h : a = b then isTrue (by rw [h]) else isFalse (by simp [h])
  | .ok _, .error _ => isFalse (by simp)
  | .error _, .ok _ => isFalse (by simp)

/-- `Except` failure test for `DError`-carrying results. -/
def exceptFailed {α : Type} : Except DError α → Bool
  | .error _ => true
  | .ok _ => false

/-- Embedding of `io::copy` (main.rs 327-334) reading through the `Watcher`
wrapper: reads are consumed until an `Ok(0)` (end of stream, also modelled by
the list running out) or an error; each read goes through `watcherRead`, whose
callback invocations are collected (in the source each invocation pushes one
`Downloading` message).  Returns the callback invocations in order and the
copy's result (total bytes copied, or the failing error). -/
def ioCopy : List ReadResult → List Nat × Except DError Nat
  | [] => ([], .ok 0)
  | .ok 0 :: _ => ([], .ok 0)
  | .ok (n + 1) :: rest =>
      let p := ioCopy rest
      ((n + 1) :: p.1,
        match p.2 with
        | .ok t => .ok (t + (n + 1))
        | .error e => .error e)
  | .err e :: _ => ([], .error e)

/-- The environment one task executes against: the result of the HTTP GET
(with the optional `Content-Length` header on success), the result of
`File::create`, and the sequence of body-read results seen by `io::copy`. -/
structure TaskBehavior where
  getResult : Except DError (Option Nat)
  createResult : Except DError Unit
  reads : List ReadResult
deriving DecidableEq, Repr

/-- Embedding of the worker closure (main.rs 313-337): `try_or_send!` on the
GET and on `File::create` pushes an `Error` message and returns early; then
`StartFile` is pushed, `io::copy` through the watcher pushes one `Downloading`
per non-zero read, and the task ends with `Success` or (on a mid-stream
failure) one `Error`.  Returns the messages pushed by this task, in order.
`tid` is `thread_id::get()` and `file_name` the unwrapped final path
component. -/
def runTask (tid : Nat) (file_name : String) (b : TaskBehavior) : List Message :=
  match b.getResult with
  | .error e => [.error tid e]
  | .ok length =>
      match b.createResult with
      | .error e => [.error tid e]
      | .ok _ =>
          let p := ioCopy b.reads
          Message.startFile tid file_name length ::
            (p.1.map (fun n => Message.downloading n tid) ++
              match p.2 with
              | .ok _ => [Message.success tid]
              | .error e => [Message.error tid e])

/-- Whether a task fails (GET failure, `File::create` failure, or a mid-stream
copy failure), read off the task's environment. -/
def taskFails (b : TaskBehavior) : Bool :=
  match b.getResult with
  | .error _ => true
  | .ok _ =>
      match b.createResult with
      | .error _ => true
      | .ok _ => exceptFailed (ioCopy b.reads).2

/-- Embedding of the dispatch loop (main.rs 311-338): the pool serialised to a
single worker popping tasks in order until the work queue is empty; each task
is `(file name, environment)`. -/
def workerLoop (tid : Nat) : List (String × TaskBehavior) → List Message
  | [] => []
  | (f, b) :: rest => runTask tid f b ++ workerLoop tid rest

/-- `Path::file_name` on a path string (the final `/`-separated component);
the source unwraps it (main.rs 320), which the claims never exercise on a
pathological path. -/
def fileNameOf (p : String) : String := (p.splitOn "/").getLastD ""

/-- Attach a timestamp (the value of `Instant::now()` when the aggregator
processes the message) to every message, taking timestamps from `clock` and
defaulting to 0 when `clock` runs out. -/
def timedWith : List ℚ → List Message → List (ℚ × Message)
  | _, [] => []
  | [], m :: ms => (0, m) :: timedWith [] ms
  | t :: ts, m :: ms => (t, m) :: timedWith ts ms

/-- Observable outcome of one call to `download_in_parallel`: its return
value, the messages pushed onto the progress channel (in order), and the
messages the aggregator thread actually popped from it. -/
structure RunResult where
  result : Except DError Unit
  sent : List Message
  consumed : List Message
deriving DecidableEq, Repr

/-- Embedding of `download_in_parallel` (main.rs 286-362).  `none` models the
panic on line 291 when the URL and path lists differ in length.  Otherwise the
work items are enqueued in order, the (serialised) pool drains them, the
orchestrator pushes the final `Done` after the pool's scope ends, and the
function returns `Ok(())`.  When `quiet` is set no watcher thread is spawned
(line 341), so nothing ever pops the channel; otherwise the watcher thread's
receive loop consumes messages until `process` reports a stop.  `behaviors`
is the per-task environment; `thread_count` and `timeout` do not affect the
serialised model.  URLs are taken as already valid (`into_url().unwrap()`,
line 300, is outside the claims). -/
def download_in_parallel (urls paths : List String) (behaviors : List TaskBehavior)
    (thread_count timeout : Nat) (quiet : Bool) (clock : List ℚ) :
    Option RunResult :=
  if urls.length ≠ paths.length then none
  else
    let tasks := (paths.zip behaviors).map (fun pb => (fileNameOf pb.1, pb.2))
    let sent := workerLoop 1 tasks ++ [Message.done]
    let consumed :=
      if quiet then ([] : List Message)
      else
        match receiveLoop (DownloadWatcher.new urls.length) (timedWith clock sent) with
        | .stopped _ rem => sent.take (sent.length - rem.length)
        | .blocked _ => sent
        | .panicked => []
    some { result := Except.ok (), sent := sent, consumed := consumed }

/-- Is this message a terminal `Error` for some task? -/
def isErrorMsg : Message → Bool
  | .error _ _ => true
  | _ => false

/-- Is this message a terminal `Success` for some task? -/
def isSuccessMsg : Message → Bool
  | .success _ => true
  | _ => false

/-- Is this message terminal for a task (`Success` or `Error`)? -/
def isTerminalMsg (m : Message) : Bool := isErrorMsg m || isSuccessMsg m

/-- Is this the `Done` (shutdown) message? -/
def isDoneMsg : Message → Bool
  | .done => true
  | _ => false

/-- Number of terminal `Error` messages in a list. -/
def countError (ms : List Message) : Nat := ms.countP isErrorMsg

/-- Number of terminal `Success` messages in a list. -/
def countSuccess (ms : List Message) : Nat := ms.countP isSuccessMsg

/-- Number of terminal messages (`Success` or `Error`) in a list. -/
def countTerminal (ms : List Message) : Nat := ms.countP isTerminalMsg

/-- Number of `Done` messages in a list. -/
def countDone (ms : List Message) : Nat := ms.countP isDoneMsg

/-- Sample task environment for concrete runs: the HTTP GET fails. -/
def sampleGetFail : TaskBehavior :=
  { getResult := .error (.hyperError "connection refused")
    createResult := .ok ()
    reads := [] }

/-- Sample task environment for concrete runs: succeeds with an empty body. -/
def sampleOk : TaskBehavior :=
  { getResult := .ok (some 0), createResult := .ok (), reads := [.ok 0] }

/-- Sample task environment for concrete runs: succeeds after one 3-byte
read. -/
def sampleOk3 : TaskBehavior :=
  { getResult := .ok (some 3), createResult := .ok (), reads := [.ok 3, .ok 0] }

/-- Sample task environment for concrete runs: `File::create` fails. -/
def sampleCreateFail : TaskBehavior :=
  { getResult := .ok (some 3)
    createResult := .error (.ioError "permission denied")
    reads := [] }

/-- Concrete task list: one failing GET, then one empty-body success. -/
def c9tasks : List (String × TaskBehavior) := [("a", sampleGetFail), ("b", sampleOk)]

/-- The messages of that run, in send order. -/
def c9msgs : List Message := workerLoop 1 c9tasks

/-- A timestamped delivery of those messages (all at instant 0). -/
def c9tm : List (ℚ × Message) := c9msgs.map (fun m => ((0 : ℚ), m))

/-- The aggregator state after draining that run. -/
def c9final : DownloadWatcher :=
  { status_map := [], quitting := false, num_files := 2, files_finished := 1 }

/-- C1 counterexample: the code formats 1,500,000 bytes with `{:.0}` (zero
decimal places), producing "2 MB", not the "1.50 MB" the claim states. -/
theorem C1_fmt_bytes_counterexample :
    fmt_bytes 1500000 = "2 MB" ∧ fmt_bytes 1500000 ≠ "1.50 MB" := by
  constructor
  · rfl
  · decide

/-- C1 (amended): byte formatting uses decimal SI prefixes at 1000 scaling
with ZERO-decimal rounding in the prefixed range: fmt_bytes 0 = "0 bytes",
fmt_bytes 999 = "999 bytes", fmt_bytes 1000 = "1 kB", and
fmt_bytes 1500000 = "2 MB". -/
theorem C1_fmt_bytes_amended :
    fmt_bytes 0 = "0 bytes" ∧ fmt_bytes 999 = "999 bytes" ∧
    fmt_bytes 1000 = "1 kB" ∧ fmt_bytes 1500000 = "2 MB" := by
  refine ⟨rfl, rfl, rfl, rfl⟩

/-- C4: `Watcher::read` returns the inner result unchanged; on `Ok(n)` the
callback is invoked exactly once with `n` when `n > 0` and not at all when
`n = 0`; on an error it is not invoked; and over any sequence of reads the
sum of callback-reported deltas equals the total bytes read. -/
theorem C4_watcher_read :
    (∀ r, (watcherRead r).1 = r) ∧
    (∀ n, (watcherRead (ReadResult.ok n)).2 = if 0 < n then [n] else []) ∧
    (∀ e, (watcherRead (ReadResult.err e)).2 = []) ∧
    (∀ rs, ((watcherReads rs).2).sum = totalBytesRead rs) := by
  refine ⟨?_, ?_, ?_, ?_⟩
  · intro r; cases r <;> rfl
  · intro n; rfl
  · intro e; rfl
  · intro rs
    induction rs with
    | nil => rfl
    | cons r rs ih =>
        cases r with
        | ok n =>
            by_cases h : 0 < n
            · simp [watcherReads, watcherRead, totalBytesRead, h, ih]
            · have hn : n = 0 := Nat.eq_zero_of_not_pos h
              subst hn
              simp [watcherReads, watcherRead, totalBytesRead, ih]
        | err e => simp [watcherReads, watcherRead, totalBytesRead, ih]

/-- C2 counterexample: once the quitting flag is set, `process` returns the
"should stop" boolean `true` even for a non-`Done` message (here `StartFile`),
contradicting the claim that it would return `false` and keep draining. -/
theorem C2_process_stop_counterexample :
    (({ DownloadWatcher.new 1 with quitting := true }).process 0
        (Message.startFile 1 "a" none)).map Prod.snd = some true := by
  rfl

/-- C2 (amended): `process` reports "should stop" exactly when the message is
`Done` or the quitting flag is already set; so after a quit keypress the
receive loop stops at the very next message of any kind instead of draining
until `Done`.  (A `Downloading` panic makes both sides false.) -/
theorem C2_process_stop_amended (s : DownloadWatcher) (now : ℚ) (m : Message) :
    (s.process now m).map Prod.snd = some true ↔
      (s.quitting = true ∨ m = Message.done) := by
  by_cases hq : s.quitting
  · simp [DownloadWatcher.process, hq]
  · cases m with
    | startFile tid f sz => simp [DownloadWatcher.process, hq]
    | downloading n tid =>
        cases h : mapLookup s.status_map tid with
        | none => simp [DownloadWatcher.process, hq, h]
        | some e => simp [DownloadWatcher.process, hq, h]
    | success tid => simp [DownloadWatcher.process, hq]
    | error tid e => simp [DownloadWatcher.process, hq]
    | done => simp [DownloadWatcher.process, hq]

/-- C3 counterexample: a `Downloading` message whose `thread_id` (here 7) has
no entry in the status map makes `process` hit the `unwrap` on line 210 and
panic (modelled as `none`), contradicting the claim that it is a benign
no-op that never panics. -/
theorem C3_missing_key_counterexample :
    (DownloadWatcher.new 1).process 0 (Message.downloading 5 7) = none := by
  rfl

/-- C5 counterexample: with the quiet flag set (here on an empty task list) no
consumer is spawned, so the final `Done` is pushed onto the channel but never
consumed — the channel is not drained, contradicting the claim. -/
theorem C5_quiet_counterexample :
    (download_in_parallel [] [] [] 4 15 true []).map RunResult.sent =
        some [Message.done] ∧
    (download_in_parallel [] [] [] 4 15 true []).map RunResult.consumed =
        some [] := by
  constructor <;> rfl

/-- `HashMap::remove` for an absent key leaves the map unchanged. -/
theorem mapRemove_eq_of_lookup_none :
    ∀ (m : List (Nat × Progress)) (k : Nat),
      mapLookup m k = none → mapRemove m k = m
  | [], _, _ => rfl
  | (k', v) :: rest, k, h => by
      by_cases hk : k' = k
      · simp [mapLookup, hk] at h
      · have h' : mapLookup rest k = none := by simpa [mapLookup, hk] using h
        have ih := mapRemove_eq_of_lookup_none rest k h'
        have hb : (fun p => decide (p.1 ≠ k)) (k', v) = true := by simp [hk]
        simp only [mapRemove] at ih ⊢
        rw [List.filter_cons, if_pos hb, ih]

/-- `HashMap::insert` makes the inserted key present. -/
theorem mapLookup_mapInsert (m : List (Nat × Progress)) (k : Nat) (v : Progress) :
    mapLookup (mapInsert m k v) k = some v := by
  simp [mapInsert, mapLookup]

/-- C3 (amended): for a thread id with no entry in the status map (and the
quitting flag clear), a `Success` message is benign — the removal leaves the
map unchanged and `process` returns normally, still incrementing
`files_finished` — but a `Downloading` message hits the `unwrap` on line 210
and panics. -/
theorem C3_missing_key_amended (s : DownloadWatcher) (tid n : Nat) (now : ℚ)
    (hq : s.quitting = false) (h : mapLookup s.status_map tid = none) :
    s.process now (Message.downloading n tid) = none ∧
    s.process now (Message.success tid) =
      some ({ s with files_finished := s.files_finished + 1 }, false) := by
  constructor
  · simp [DownloadWatcher.process, hq, h]
  · simp [DownloadWatcher.process, hq, mapRemove_eq_of_lookup_none s.status_map tid h]

/-- C3 witness: concrete instance of the amended claim at the empty status
map with thread id 7. -/
theorem C3_missing_key_witness :
    (DownloadWatcher.new 3).quitting = false ∧
    mapLookup (DownloadWatcher.new 3).status_map 7 = none ∧
    ((DownloadWatcher.new 3).process 0 (Message.downloading 5 7) = none ∧
      (DownloadWatcher.new 3).process 0 (Message.success 7) =
        some ({ DownloadWatcher.new 3 with
                  files_finished := (DownloadWatcher.new 3).files_finished + 1 },
              false)) :=
  ⟨rfl, rfl, C3_missing_key_amended (DownloadWatcher.new 3) 7 5 0 rfl rfl⟩

/-- C5 (amended): with the quiet flag set the run still performs all
downloads — the function returns `Ok(())` and pushes exactly the same message
sequence (including the final `Done`) as a non-quiet run — but no consumer
thread is spawned, so the channel is never drained: no message is consumed. -/
theorem C5_quiet_amended (urls paths : List String) (behaviors : List TaskBehavior)
    (tc tmo : Nat) (clockQ clockL : List ℚ)
    (h : urls.length = paths.length) :
    ∃ rq rl,
      download_in_parallel urls paths behaviors tc tmo true clockQ = some rq ∧
      download_in_parallel urls paths behaviors tc tmo false clockL = some rl ∧
      rq.sent = rl.sent ∧ rq.result = Except.ok () ∧ rq.consumed = [] := by
  unfold download_in_parallel
  rw [if_neg (by simp [h]), if_neg (by simp [h])]
  exact ⟨_, _, rfl, rfl, rfl, rfl, rfl⟩

/-- C5 witness: concrete instance at a single successful download. -/
theorem C5_quiet_witness :
    (["u"].length = ["downloads/a"].length) ∧
    (∃ rq rl,
      download_in_parallel ["u"] ["downloads/a"] [sampleOk] 4 15 true [] = some rq ∧
      download_in_parallel ["u"] ["downloads/a"] [sampleOk] 4 15 false [] = some rl ∧
      rq.sent = rl.sent ∧ rq.result = Except.ok () ∧ rq.consumed = []) :=
  ⟨rfl, C5_quiet_amended ["u"] ["downloads/a"] [sampleOk] 4 15 [] [] rfl⟩

/-- C7: whenever the URL and path lists have equal length,
`download_in_parallel` returns `Ok(())`, whatever the per-task outcomes are:
per-file failures surface only as `Error` messages, never as an error return
of the run. -/
theorem C7_ok_result (urls paths : List String) (behaviors : List TaskBehavior)
    (tc tmo : Nat) (quiet : Bool) (clock : List ℚ)
    (h : urls.length = paths.length) :
    (download_in_parallel urls paths behaviors tc tmo quiet clock).map
        RunResult.result = some (Except.ok ()) := by
  unfold download_in_parallel
  rw [if_neg (by simp [h])]
  rfl

/-- C7 witness: concrete instance with one failing GET, one failing
`File::create` and one success — the run still returns `Ok(())`. -/
theorem C7_ok_result_witness :
    (["u1", "u2", "u3"].length = ["downloads/a", "downloads/b", "downloads/c"].length) ∧
    (download_in_parallel ["u1", "u2", "u3"]
        ["downloads/a", "downloads/b", "downloads/c"]
        [sampleGetFail, sampleCreateFail, sampleOk] 2 15 false []).map
        RunResult.result = some (Except.ok ()) :=
  ⟨rfl, C7_ok_result ["u1", "u2", "u3"] ["downloads/a", "downloads/b", "downloads/c"]
    [sampleGetFail, sampleCreateFail, sampleOk] 2 15 false [] rfl⟩

/-- C10: `download_in_parallel` panics (modelled as `none`) whenever the URL
and path lists differ in length; it never returns an error value for this
case. -/
theorem C10_length_panic (urls paths : List String) (behaviors : List TaskBehavior)
    (tc tmo : Nat) (quiet : Bool) (clock : List ℚ)
    (h : urls.length ≠ paths.length) :
    download_in_parallel urls paths behaviors tc tmo quiet clock = none := by
  unfold download_in_parallel
  rw [if_pos h]

/-- C10 witness: one URL and zero paths panic. -/
theorem C10_length_panic_witness :
    (["u"].length ≠ ([] : List String).length) ∧
    download_in_parallel ["u"] [] [] 4 15 false [] = none :=
  ⟨by decide, C10_length_panic ["u"] [] [] 4 15 false [] (by decide)⟩

/-- The serialised dispatch loop distributes over appended task lists. -/
theorem workerLoop_append (tid : Nat) :
    ∀ xs ys, workerLoop tid (xs ++ ys) = workerLoop tid xs ++ workerLoop tid ys
  | [], _ => rfl
  | (f, b) :: xs, ys => by
      simp [workerLoop, workerLoop_append tid xs ys, List.append_assoc]

/-- A block of `Downloading` messages contributes nothing to a count of
messages of any other kind. -/
theorem countP_downloading (p : Message → Bool) (tid : Nat) (ds : List Nat)
    (hp : ∀ n, p (Message.downloading n tid) = false) :
    (ds.map (fun n => Message.downloading n tid)).countP p = 0 := by
  induction ds with
  | nil => rfl
  | cons d ds ih => simp [List.countP_cons, hp, ih]

/-- A failing task's message block: exactly one `Error`, no `Success`, and
the `Error` is the last message. -/
theorem runTask_of_fails (tid : Nat) (f : String) (b : TaskBehavior)
    (hfail : taskFails b = true) :
    countError (runTask tid f b) = 1 ∧ countSuccess (runTask tid f b) = 0 ∧
    ∃ e, (runTask tid f b).getLast? = some (Message.error tid e) := by
  cases hg : b.getResult with
  | error e =>
      refine ⟨?_, ?_, ⟨e, ?_⟩⟩ <;>
        simp [runTask, hg, countError, countSuccess, List.countP_cons,
          isErrorMsg, isSuccessMsg]
  | ok len =>
      cases hc : b.createResult with
      | error e =>
          refine ⟨?_, ?_, ⟨e, ?_⟩⟩ <;>
            simp [runTask, hg, hc, countError, countSuccess, List.countP_cons,
              isErrorMsg, isSuccessMsg]
      | ok u =>
          cases hcopy : (ioCopy b.reads).2 with
          | ok t =>
              exfalso
              simp [taskFails, hg, hc, exceptFailed, hcopy] at hfail
          | error e =>
              have hrt : runTask tid f b =
                  Message.startFile tid f len ::
                    ((ioCopy b.reads).1.map (fun n => Message.downloading n tid) ++
                      [Message.error tid e]) := by
                simp [runTask, hg, hc, hcopy]
              refine ⟨?_, ?_, ⟨e, ?_⟩⟩
              · rw [hrt]
                simp only [countError, List.countP_cons, List.countP_append]
                rw [countP_downloading isErrorMsg tid _ (fun n => rfl)]
                simp [isErrorMsg]
              · rw [hrt]
                simp only [countSuccess, List.countP_cons, List.countP_append]
                rw [countP_downloading isSuccessMsg tid _ (fun n => rfl)]
                simp [isSuccessMsg]
              · rw [hrt, ← List.cons_append, List.getLast?_concat]

/-- C6: a failing task (GET failure, file-creation failure, or mid-stream
failure) emits exactly one `Error` message, no `Success`, ends with that
`Error` (the task is aborted there), and leaves every other queued task's
message block unchanged — the worker just proceeds to the next task. -/
theorem C6_local_failure (tid : Nat) (f : String) (b : TaskBehavior)
    (pre post : List (String × TaskBehavior)) (hfail : taskFails b = true) :
    countError (runTask tid f b) = 1 ∧
    countSuccess (runTask tid f b) = 0 ∧
    (∃ e, (runTask tid f b).getLast? = some (Message.error tid e)) ∧
    workerLoop tid (pre ++ (f, b) :: post) =
      workerLoop tid pre ++ runTask tid f b ++ workerLoop tid post := by
  obtain ⟨h1, h2, h3⟩ := runTask_of_fails tid f b hfail
  refine ⟨h1, h2, h3, ?_⟩
  rw [workerLoop_append]
  simp [workerLoop, List.append_assoc]

/-- C6 witness: a mid-stream I/O failure between two healthy tasks. -/
theorem C6_local_failure_witness :
    taskFails { getResult := Except.ok (some 9)
                createResult := Except.ok ()
                reads := [ReadResult.ok 3, ReadResult.err (DError.ioError "broken pipe")] } = true ∧
    (countError (runTask 1 "b"
        { getResult := Except.ok (some 9)
          createResult := Except.ok ()
          reads := [ReadResult.ok 3, ReadResult.err (DError.ioError "broken pipe")] }) = 1 ∧
      countSuccess (runTask 1 "b"
        { getResult := Except.ok (some 9)
          createResult := Except.ok ()
          reads := [ReadResult.ok 3, ReadResult.err (DError.ioError "broken pipe")] }) = 0 ∧
      (∃ e, (runTask 1 "b"
        { getResult := Except.ok (some 9)
          createResult := Except.ok ()
          reads := [ReadResult.ok 3, ReadResult.err (DError.ioError "broken pipe")] }).getLast?
          = some (Message.error 1 e)) ∧
      workerLoop 1 ([("a", sampleOk)] ++ ("b",
        { getResult := Except.ok (some 9)
          createResult := Except.ok ()
          reads := [ReadResult.ok 3, ReadResult.err (DError.ioError "broken pipe")] }) :: [("c", sampleOk3)]) =
        workerLoop 1 [("a", sampleOk)] ++ runTask 1 "b"
          { getResult := Except.ok (some 9)
            createResult := Except.ok ()
            reads := [ReadResult.ok 3, ReadResult.err (DError.ioError "broken pipe")] } ++
          workerLoop 1 [("c", sampleOk3)]) :=
  ⟨rfl, C6_local_failure 1 "b"
    { getResult := Except.ok (some 9)
      createResult := Except.ok ()
      reads := [ReadResult.ok 3, ReadResult.err (DError.ioError "broken pipe")] }
    [("a", sampleOk)] [("c", sampleOk3)] rfl⟩

/-- Shape of a `process` step on `StartFile` with the quitting flag clear. -/
theorem process_startFile (s : DownloadWatcher) (t : ℚ) (tid : Nat)
    (fn : String) (sz : Option Nat) (hq : s.quitting = false) :
    s.process t (Message.startFile tid fn sz) =
      some ({ s with status_map := (mapInsert s.status_map tid
                { file_name := fn
                  file_size := sz
                  progress := 0
                  error := none
                  start_time := t
                  download_rate := 0 }) }, false) := by
  simp [DownloadWatcher.process, hq]

/-- Shape of a `process` step on `Success` with the quitting flag clear. -/
theorem process_success (s : DownloadWatcher) (t : ℚ) (tid : Nat)
    (hq : s.quitting = false) :
    s.process t (Message.success tid) =
      some ({ s with status_map := mapRemove s.status_map tid,
                     files_finished := s.files_finished + 1 }, false) := by
  simp [DownloadWatcher.process, hq]

/-- Shape of a `process` step on `Downloading` with the key present and the
quitting flag clear. -/
theorem process_downloading_found (s : DownloadWatcher) (t : ℚ) (d tid : Nat)
    (e : Progress) (hq : s.quitting = false)
    (hl : mapLookup s.status_map tid = some e) :
    s.process t (Message.downloading d tid) =
      some ({ s with status_map := (mapInsert s.status_map tid
                { e with progress := e.progress + d,
                         download_rate := ((e.progress + d : Nat) : ℚ) / (t - e.start_time) }) },
            false) := by
  simp [DownloadWatcher.process, hq, hl]

/-- Shape of a `process` step on `Error` with the quitting flag clear. -/
theorem process_error (s : DownloadWatcher) (t : ℚ) (tid : Nat) (err : DError)
    (hq : s.quitting = false) :
    s.process t (Message.error tid err) =
      some ({ s with status_map := (mapInsert s.status_map tid
                { (mapLookup s.status_map tid).getD (Progress.new t) with
                    error := some err }) }, false) := by
  simp [DownloadWatcher.process, hq]

/-- Shape of a `process` step on `Done` with the quitting flag clear. -/
theorem process_done (s : DownloadWatcher) (t : ℚ) (hq : s.quitting = false) :
    s.process t Message.done = some (s, true) := by
  simp [DownloadWatcher.process, hq]

/-- `processNoStop` splits across an append. -/
theorem processNoStop_append (a b : List (ℚ × Message)) :
    ∀ s, processNoStop s (a ++ b) =
      (processNoStop s a).bind (fun s' => processNoStop s' b) := by
  induction a with
  | nil => intro s; rfl
  | cons tmsg rest ih =>
      intro s
      obtain ⟨t, m⟩ := tmsg
      simp only [List.cons_append, processNoStop]
      cases h : s.process t m with
      | none => rfl
      | some p =>
          obtain ⟨s', stop⟩ := p
          cases stop
          · simpa using ih s'
          · rfl

/-- If a block of messages processes with neither stop nor panic, the receive
loop continues past it into the rest of the queue. -/
theorem receiveLoop_append (a b : List (ℚ × Message)) :
    ∀ s s', processNoStop s a = some s' →
      receiveLoop s (a ++ b) = receiveLoop s' b := by
  induction a with
  | nil =>
      intro s s' h
      cases h
      rfl
  | cons tmsg rest ih =>
      intro s s' h
      obtain ⟨t, m⟩ := tmsg
      simp only [processNoStop] at h
      simp only [List.cons_append, receiveLoop]
      cases hp : s.process t m with
      | none => rw [hp] at h; simp at h
      | some p =>
          obtain ⟨s1, stop⟩ := p
          rw [hp] at h
          cases stop
          · exact ih s1 s' (by simpa using h)
          · simp at h

/-- Draining a block of `Downloading` messages for a key that is present
neither stops, nor panics, nor sets the quitting flag, and keeps the key
present. -/
theorem processNoStop_downloading_block (tid : Nat) :
    ∀ (ds : List Nat) (s : DownloadWatcher) (tm : List (ℚ × Message)),
      s.quitting = false →
      (mapLookup s.status_map tid).isSome = true →
      tm.map Prod.snd = ds.map (fun n => Message.downloading n tid) →
      ∃ s', processNoStop s tm = some s' ∧ s'.quitting = false ∧
        (mapLookup s'.status_map tid).isSome = true
  | [], s, tm, hq, hk, hmap => by
      have htm : tm = [] := by
        cases tm with
        | nil => rfl
        | cons a l => simp at hmap
      subst htm
      exact ⟨s, rfl, hq, hk⟩
  | d :: ds, s, tm, hq, hk, hmap => by
      cases tm with
      | nil => simp at hmap
      | cons tmsg rest =>
          obtain ⟨t, m⟩ := tmsg
          simp only [List.map_cons, List.cons.injEq] at hmap
          obtain ⟨hm, hrest⟩ := hmap
          cases hl : mapLookup s.status_map tid with
          | none => rw [hl] at hk; simp at hk
          | some e =>
              have hstep := process_downloading_found s t d tid e hq hl
              obtain ⟨s', hp, hq', hk'⟩ :=
                processNoStop_downloading_block tid ds
                  ({ s with status_map := (mapInsert s.status_map tid
                      { e with progress := e.progress + d,
                               download_rate :=
                                 ((e.progress + d : Nat) : ℚ) / (t - e.start_time) }) })
                  rest hq (by simp [mapLookup_mapInsert]) hrest
              refine ⟨s', ?_, hq', hk'⟩
              simp only [processNoStop, hm, hstep]
              exact hp

/-- Processing a singleton message block that steps without stop or panic and
leaves the quitting flag clear. -/
theorem processNoStop_single (s : DownloadWatcher) (m : Message)
    (tm : List (ℚ × Message)) (hmap : tm.map Prod.snd = [m])
    (hstep : ∀ t, ∃ s1, s.process t m = some (s1, false) ∧ s1.quitting = false) :
    ∃ s', processNoStop s tm = some s' ∧ s'.quitting = false := by
  cases tm with
  | nil => simp at hmap
  | cons tmsg rest =>
      obtain ⟨t, m'⟩ := tmsg
      simp only [List.map_cons, List.cons.injEq] at hmap
      obtain ⟨hm, hrest⟩ := hmap
      have hre : rest = [] := List.map_eq_nil_iff.mp hrest
      subst hre
      subst hm
      obtain ⟨s1, hp, hq1⟩ := hstep t
      exact ⟨s1, by simp only [processNoStop, hp], hq1⟩

/-- Draining one task's message block from any non-quitting state neither
stops, nor panics, nor sets the quitting flag. -/
theorem processNoStop_runTask (tid : Nat) (f : String) (b : TaskBehavior)
    (s : DownloadWatcher) (tm : List (ℚ × Message))
    (hq : s.quitting = false) (hmap : tm.map Prod.snd = runTask tid f b) :
    ∃ s', processNoStop s tm = some s' ∧ s'.quitting = false := by
  cases hg : b.getResult with
  | error e =>
      rw [show runTask tid f b = [Message.error tid e] by simp [runTask, hg]] at hmap
      refine processNoStop_single s _ tm hmap (fun t => ⟨_, process_error s t tid e hq, hq⟩)
  | ok len =>
      cases hc : b.createResult with
      | error e =>
          rw [show runTask tid f b = [Message.error tid e] by simp [runTask, hg, hc]] at hmap
          exact processNoStop_single s _ tm hmap (fun t => ⟨_, process_error s t tid e hq, hq⟩)
      | ok u =>
          have hrt : runTask tid f b =
              Message.startFile tid f len ::
                ((ioCopy b.reads).1.map (fun n => Message.downloading n tid) ++
                  [match (ioCopy b.reads).2 with
                   | .ok _ => Message.success tid
                   | .error e => Message.error tid e]) := by
            cases hcopy : (ioCopy b.reads).2 <;> simp [runTask, hg, hc, hcopy]
          rw [hrt] at hmap
          cases tm with
          | nil => simp at hmap
          | cons tmsg rest =>
              obtain ⟨t0, m0⟩ := tmsg
              simp only [List.map_cons, List.cons.injEq] at hmap
              obtain ⟨hm0, hrest⟩ := hmap
              subst hm0
              obtain ⟨tm1, tm2, hsplit, h1, h2⟩ := List.map_eq_append_iff.mp hrest
              subst hsplit
              have hstep0 := process_startFile s t0 tid f len hq
              set s1 : DownloadWatcher :=
                { s with status_map := (mapInsert s.status_map tid
                    { file_name := f
                      file_size := len
                      progress := 0
                      error := none
                      start_time := t0
                      download_rate := 0 }) } with hs1
              obtain ⟨s2, hp1, hq2, hk2⟩ :=
                processNoStop_downloading_block tid (ioCopy b.reads).1 s1 tm1 hq
                  (by simp [hs1, mapLookup_mapInsert]) h1
              have hterm : ∃ s3, processNoStop s2 tm2 = some s3 ∧ s3.quitting = false := by
                cases hcopy : (ioCopy b.reads).2 with
                | ok tot =>
                    rw [hcopy] at h2
                    exact processNoStop_single s2 _ tm2 h2
                      (fun t => ⟨_, process_success s2 t tid hq2, hq2⟩)
                | error e =>
                    rw [hcopy] at h2
                    exact processNoStop_single s2 _ tm2 h2
                      (fun t => ⟨_, process_error s2 t tid e hq2, hq2⟩)
              obtain ⟨s3, hp2, hq3⟩ := hterm
              refine ⟨s3, ?_, hq3⟩
              simp only [processNoStop, hstep0]
              rw [processNoStop_append, hp1]
              exact hp2

/-- Draining the whole serialised run's worker messages from any non-quitting
state neither stops, nor panics, nor sets the quitting flag. -/
theorem processNoStop_workerLoop (tid : Nat) :
    ∀ (tasks : List (String × TaskBehavior)) (s : DownloadWatcher)
      (tm : List (ℚ × Message)),
      s.quitting = false → tm.map Prod.snd = workerLoop tid tasks →
      ∃ s', processNoStop s tm = some s' ∧ s'.quitting = false
  | [], s, tm, hq, hmap => by
      have htm : tm = [] := by
        rw [workerLoop] at hmap
        exact List.map_eq_nil_iff.mp hmap
      subst htm
      exact ⟨s, rfl, hq⟩
  | (f, b) :: rest, s, tm, hq, hmap => by
      rw [workerLoop] at hmap
      obtain ⟨tm1, tm2, hsplit, h1, h2⟩ := List.map_eq_append_iff.mp hmap
      subst hsplit
      obtain ⟨s1, hp1, hq1⟩ := processNoStop_runTask tid f b s tm1 hq h1
      obtain ⟨s2, hp2, hq2⟩ := processNoStop_workerLoop tid rest s1 tm2 hq1 h2
      refine ⟨s2, ?_, hq2⟩
      rw [processNoStop_append, hp1]
      exact hp2

/-- One task's message block contains no `Done` message. -/
theorem countDone_runTask (tid : Nat) (f : String) (b : TaskBehavior) :
    countDone (runTask tid f b) = 0 := by
  cases hg : b.getResult with
  | error e => simp [runTask, hg, countDone, List.countP_cons, isDoneMsg]
  | ok len =>
      cases hc : b.createResult with
      | error e => simp [runTask, hg, hc, countDone, List.countP_cons, isDoneMsg]
      | ok u =>
          cases hcopy : (ioCopy b.reads).2 with
          | ok tot =>
              simp only [runTask, hg, hc, hcopy, countDone, List.countP_cons,
                List.countP_append]
              rw [countP_downloading isDoneMsg tid _ (fun n => rfl)]
              simp [isDoneMsg]
          | error e =>
              simp only [runTask, hg, hc, hcopy, countDone, List.countP_cons,
                List.countP_append]
              rw [countP_downloading isDoneMsg tid _ (fun n => rfl)]
              simp [isDoneMsg]

/-- The workers themselves never send `Done`. -/
theorem countDone_workerLoop (tid : Nat) :
    ∀ tasks, countDone (workerLoop tid tasks) = 0
  | [] => rfl
  | (f, b) :: rest => by
      rw [workerLoop]
      simp only [countDone, List.countP_append]
      have h1 := countDone_runTask tid f b
      have h2 := countDone_workerLoop tid rest
      simp only [countDone] at h1 h2
      omega

/-- C8: the serialised run sends exactly one `Done`, and sends it last (after
every worker task's messages); for any timestamped delivery of the run the
aggregator's receive loop terminates exactly at that `Done`, consuming every
message — including when zero files were requested. -/
theorem C8_shutdown (tid n : Nat) (tasks : List (String × TaskBehavior))
    (tm : List (ℚ × Message))
    (hmap : tm.map Prod.snd = workerLoop tid tasks ++ [Message.done]) :
    countDone (workerLoop tid tasks ++ [Message.done]) = 1 ∧
    (workerLoop tid tasks ++ [Message.done]).getLast? = some Message.done ∧
    ∃ final, receiveLoop (DownloadWatcher.new n) tm = LoopOutcome.stopped final [] := by
  refine ⟨?_, List.getLast?_concat _, ?_⟩
  · simp only [countDone, List.countP_append]
    have h0 := countDone_workerLoop tid tasks
    simp only [countDone] at h0
    simp [h0, List.countP_cons, isDoneMsg]
  · obtain ⟨tm1, tm2, hsplit, h1, h2⟩ := List.map_eq_append_iff.mp hmap
    subst hsplit
    obtain ⟨s1, hp1, hq1⟩ :=
      processNoStop_workerLoop tid tasks (DownloadWatcher.new n) tm1 rfl h1
    cases tm2 with
    | nil => simp at h2
    | cons td rest2 =>
        obtain ⟨t, m⟩ := td
        simp only [List.map_cons, List.cons.injEq] at h2
        obtain ⟨hm, hrest⟩ := h2
        have hre : rest2 = [] := List.map_eq_nil_iff.mp hrest
        subst hm
        subst hre
        refine ⟨s1, ?_⟩
        rw [receiveLoop_append _ _ _ _ hp1]
        simp only [receiveLoop, process_done s1 t hq1]

/-- C8 witness: a one-task run (a failing GET) delivered at instant 0. -/
theorem C8_shutdown_witness :
    ([((0 : ℚ), Message.error 1 (DError.hyperError "connection refused")),
      ((0 : ℚ), Message.done)].map Prod.snd =
        workerLoop 1 [("a", sampleGetFail)] ++ [Message.done]) ∧
    (countDone (workerLoop 1 [("a", sampleGetFail)] ++ [Message.done]) = 1 ∧
      (workerLoop 1 [("a", sampleGetFail)] ++ [Message.done]).getLast? =
        some Message.done ∧
      ∃ final, receiveLoop (DownloadWatcher.new 1)
          [((0 : ℚ), Message.error 1 (DError.hyperError "connection refused")),
           ((0 : ℚ), Message.done)] = LoopOutcome.stopped final []) :=
  ⟨rfl, C8_shutdown 1 1 [("a", sampleGetFail)]
    [((0 : ℚ), Message.error 1 (DError.hyperError "connection refused")),
     ((0 : ℚ), Message.done)] rfl⟩

/-- One task's message block contains exactly one terminal message. -/
theorem countTerminal_runTask (tid : Nat) (f : String) (b : TaskBehavior) :
    countTerminal (runTask tid f b) = 1 := by
  cases hg : b.getResult with
  | error e =>
      simp [runTask, hg, countTerminal, List.countP_cons, isTerminalMsg,
        isErrorMsg, isSuccessMsg]
  | ok len =>
      cases hc : b.createResult with
      | error e =>
          simp [runTask, hg, hc, countTerminal, List.countP_cons, isTerminalMsg,
            isErrorMsg, isSuccessMsg]
      | ok u =>
          cases hcopy : (ioCopy b.reads).2 with
          | ok tot =>
              simp only [runTask, hg, hc, hcopy, countTerminal, List.countP_cons,
                List.countP_append]
              rw [countP_downloading isTerminalMsg tid _ (fun n => rfl)]
              simp [isTerminalMsg, isErrorMsg, isSuccessMsg]
          | error e =>
              simp only [runTask, hg, hc, hcopy, countTerminal, List.countP_cons,
                List.countP_append]
              rw [countP_downloading isTerminalMsg tid _ (fun n => rfl)]
              simp [isTerminalMsg, isErrorMsg, isSuccessMsg]

/-- The serialised run of N tasks contains exactly N terminal messages. -/
theorem countTerminal_workerLoop (tid : Nat) :
    ∀ tasks, countTerminal (workerLoop tid tasks) = tasks.length
  | [] => rfl
  | (f, b) :: rest => by
      rw [workerLoop]
      simp only [countTerminal, List.countP_append, List.length_cons]
      have h1 := countTerminal_runTask tid f b
      have h2 := countTerminal_workerLoop tid rest
      simp only [countTerminal] at h1 h2
      omega

/-- Success messages are terminal, so there are at most as many of them. -/
theorem countSuccess_le_countTerminal (ms : List Message) :
    countSuccess ms ≤ countTerminal ms :=
  List.countP_mono_left (fun m _ h => by simp [isTerminalMsg, h])

/-- A single non-stopping `process` step increments `files_finished` exactly
on `Success` messages and leaves it unchanged otherwise. -/
theorem process_files_step (s : DownloadWatcher) (t : ℚ) (m : Message)
    (s0 : DownloadWatcher) (h : s.process t m = some (s0, false)) :
    s0.files_finished = s.files_finished + (if isSuccessMsg m then 1 else 0) := by
  by_cases hq0 : s.quitting
  · simp [DownloadWatcher.process, hq0] at h
  · replace hq0 : s.quitting = false := by simpa using hq0
    cases m with
    | done => rw [process_done s t hq0] at h; simp at h
    | startFile tid fn sz =>
        rw [process_startFile s t tid fn sz hq0] at h
        simp only [Option.some.injEq, Prod.mk.injEq] at h
        rw [← h.1]
        simp [isSuccessMsg]
    | success tid =>
        rw [process_success s t tid hq0] at h
        simp only [Option.some.injEq, Prod.mk.injEq] at h
        rw [← h.1]
        simp [isSuccessMsg]
    | downloading d tid =>
        cases hl : mapLookup s.status_map tid with
        | none => simp [DownloadWatcher.process, hq0, hl] at h
        | some e =>
            rw [process_downloading_found s t d tid e hq0 hl] at h
            simp only [Option.some.injEq, Prod.mk.injEq] at h
            rw [← h.1]
            simp [isSuccessMsg]
    | error tid err =>
        rw [process_error s t tid err hq0] at h
        simp only [Option.some.injEq, Prod.mk.injEq] at h
        rw [← h.1]
        simp [isSuccessMsg]

/-- Across any panic-free, stop-free run of messages, `files_finished` is
monotone and grows by at most the number of `Success` messages processed. -/
theorem processNoStop_files :
    ∀ (tm : List (ℚ × Message)) (s s' : DownloadWatcher),
      processNoStop s tm = some s' →
      s.files_finished ≤ s'.files_finished ∧
      s'.files_finished ≤ s.files_finished + countSuccess (tm.map Prod.snd)
  | [], s, s', h => by
      cases h
      simp [countSuccess]
  | (t, m) :: rest, s, s', h => by
      simp only [processNoStop] at h
      cases hp : s.process t m with
      | none => rw [hp] at h; simp at h
      | some p =>
          obtain ⟨s1, stop⟩ := p
          rw [hp] at h
          cases stop with
          | true => simp at h
          | false =>
              have hstep := process_files_step s t m s1 hp
              obtain ⟨hmono, hbound⟩ := processNoStop_files rest s1 s' h
              rw [List.map_cons]
              simp only [countSuccess, List.countP_cons] at hbound ⊢
              by_cases hsm : isSuccessMsg m <;>
                simp only [hsm, if_true, if_false] at hstep ⊢ <;> omega

/-- C9: the serialised run of a task list of size N sends exactly N terminal
messages (one per task); starting from the initial aggregator state, draining
any permutation of the run's worker messages leaves `files_finished` at most
N; and `files_finished` never decreases across any further processing. -/
theorem C9_terminal_counter (tid : Nat) (tasks : List (String × TaskBehavior))
    (msgs : List Message) (tm tm1 tm2 : List (ℚ × Message))
    (s' s1 s2 : DownloadWatcher)
    (hperm : msgs.Perm (workerLoop tid tasks))
    (hmap : tm.map Prod.snd = msgs)
    (hrun : processNoStop (DownloadWatcher.new tasks.length) tm = some s')
    (h1 : processNoStop (DownloadWatcher.new tasks.length) tm1 = some s1)
    (h12 : processNoStop s1 tm2 = some s2) :
    countTerminal (workerLoop tid tasks) = tasks.length ∧
    s'.files_finished ≤ tasks.length ∧
    s1.files_finished ≤ s2.files_finished := by
  refine ⟨countTerminal_workerLoop tid tasks, ?_,
    (processNoStop_files tm2 s1 s2 h12).1⟩
  obtain ⟨hmono, hbound⟩ :=
    processNoStop_files tm (DownloadWatcher.new tasks.length) s' hrun
  rw [hmap] at hbound
  have hcs : countSuccess msgs = countSuccess (workerLoop tid tasks) := by
    simpa [countSuccess] using hperm.countP_eq isSuccessMsg
  have hst : countSuccess (workerLoop tid tasks) ≤ tasks.length := by
    have hle := countSuccess_le_countTerminal (workerLoop tid tasks)
    rw [countTerminal_workerLoop tid tasks] at hle
    exact hle
  have hnew : (DownloadWatcher.new tasks.length).files_finished = 0 := rfl
  omega

/-- C9 witness: the two-task run (one failing GET, one empty-body success)
delivered in send order at instant 0 finishes with `files_finished = 1 ≤ 2`. -/
theorem C9_terminal_counter_witness :
    c9msgs.Perm (workerLoop 1 c9tasks) ∧
    c9tm.map Prod.snd = c9msgs ∧
    processNoStop (DownloadWatcher.new c9tasks.length) c9tm = some c9final ∧
    processNoStop (DownloadWatcher.new c9tasks.length) [] =
      some (DownloadWatcher.new c9tasks.length) ∧
    processNoStop (DownloadWatcher.new c9tasks.length) c9tm = some c9final ∧
    (countTerminal (workerLoop 1 c9tasks) = c9tasks.length ∧
      c9final.files_finished ≤ c9tasks.length ∧
      (DownloadWatcher.new c9tasks.length).files_finished ≤ c9final.files_finished) :=
  ⟨List.Perm.refl _, rfl, rfl, rfl, rfl,
    C9_terminal_counter 1 c9tasks c9msgs c9tm [] c9tm c9final
      (DownloadWatcher.new c9tasks.length) c9final
      (List.Perm.refl _) rfl rfl rfl rfl⟩

end RsDownloader
